import Mathlib

/-!
Verification of the Anki spelling-deck generator pipeline
(anki_spelling_generator.py).

Text is modelled as `List Char`.  Python dicts (insertion-ordered) are
modelled as association lists where inserting an existing key updates the
value in place and a new key is appended.  The external AI services are
modelled as inputs (a `World` structure carrying the response texts, the
per-word synthesis failure oracle, the scheduler choosing the completion
order of the parallel synthesis tasks, and the epoch time).
-/

/-- Text, modelled as a list of characters. -/
abbrev Str := List Char

/-- Python whitespace characters recognised by str.strip and str.split. -/
def isPyWS (c : Char) : Bool :=
  c = ' ' || c = '\t' || c = '\n' || c = '\r' || c = '\x0b' || c = '\x0c'

/-- Python str.strip(): remove leading and trailing whitespace. -/
def pyStrip (s : Str) : Str :=
  ((s.dropWhile isPyWS).reverse.dropWhile isPyWS).reverse

/-- Accumulator worker for `pySplit`; `acc` holds the current chunk reversed. -/
def pySplitAux (sep : Char) : Str → Str → List Str
  | [], acc => [acc.reverse]
  | c :: cs, acc =>
      if c = sep then acc.reverse :: pySplitAux sep cs []
      else pySplitAux sep cs (c :: acc)

/-- Python str.split(sep) for a single-character separator: splits at every
occurrence of `sep`, keeping empty chunks. -/
def pySplit (sep : Char) (s : Str) : List Str := pySplitAux sep s []

/-- Accumulator worker for `pySplitWS`; `acc` holds the current word reversed. -/
def pySplitWSAux : Str → Str → List (List Char)
  | [], acc => if acc.isEmpty then [] else [acc.reverse]
  | c :: cs, acc =>
      if isPyWS c then
        (if acc.isEmpty then pySplitWSAux cs [] else acc.reverse :: pySplitWSAux cs [])
      else pySplitWSAux cs (c :: acc)

/-- Python str.split() with no argument: split on runs of whitespace,
discarding empty chunks. -/
def pySplitWS (s : Str) : List Str := pySplitWSAux s []

/-- Split a string at the first occurrence of `sep`, if any.  Used only to
state the specification reading of the sentence parser. -/
def splitFirst (sep : Char) : Str → Option (Str × Str)
  | [] => none
  | c :: cs =>
      if c = sep then some ([], cs)
      else (splitFirst sep cs).map (fun t => (c :: t.1, t.2))

/-- A Python dict of strings: association list in insertion order. -/
abbrev Dict := List (Str × Str)

/-- Python dict insertion: an existing key keeps its position and gets the
new value; a new key is appended at the end. -/
def dictInsert : Dict → Str → Str → Dict
  | [], k, v => [(k, v)]
  | (k', v') :: rest, k, v =>
      if k' = k then (k, v) :: rest else (k', v') :: dictInsert rest k v

/-- pathlib Path.name: the final path component (text after the last slash). -/
def pathName (p : Str) : Str := (p.reverse.takeWhile (fun c => c ≠ '/')).reverse

/-- POSIX path join as used by the program (directory / file name). -/
def pathJoin (dir file : Str) : Str := dir ++ '/' :: file

-- Source embedding ----------------------------------------------------------

/-- extract_spelling_words_from_image, response-parsing part (line 63):
the message content of the vision response is split on whitespace. -/
def extract_spelling_words_from_image (content : Str) : List Str :=
  pySplitWS content

/-- The per-line loop of generate_example_sentences (lines 97-99):
each line is split on every pipe and unpacked into exactly two parts;
any other number of parts raises ValueError, modelled as `none`. -/
def parseLines : List Str → Dict → Option Dict
  | [], d => some d
  | line :: rest, d =>
      match pySplit '|' line with
      | [w, s] => parseLines rest (dictInsert d (pyStrip w) (pyStrip s))
      | _ => none

/-- generate_example_sentences, response-parsing part (lines 97-101):
strip the content, split on newlines, parse each line. -/
def generate_example_sentences (content : Str) : Option Dict :=
  parseLines (pySplit '\n' (pyStrip content)) []

/-- The synthesis input string of convert_text_to_speech_task (line 111). -/
def tts_input (word sentence : Str) : Str :=
  '"' :: word ++ "\"... ".data ++ sentence ++ "... \"".data ++ word ++ "\".".data

/-- The audio file path of convert_text_to_speech_task (line 113). -/
def task_audio_path ( pfx outdir word : Str) : Str :=
  pathJoin outdir ( pfx ++ '_' :: (word ++ ".mp3".data))

/-- The message printed when one synthesis task fails (line 142); the
exception text is external and omitted from the model. -/
def ttsLogMsg (word : Str) : Str :=
  "An error occurred while processing ".data ++ word

/-- The body of the as_completed loop of convert_text_to_speech
(lines 136-142): a failing task is logged and excluded, a succeeding one
inserts its (word, path) pair into the result dict. -/
def ttsStep ( pfx outdir : Str) (fails : Str → Bool)
    (acc : Dict × List Str) (t : Str × Str) : Dict × List Str :=
  if fails t.1 then (acc.1, acc.2 ++ [ttsLogMsg t.1])
  else (dictInsert acc.1 t.1 (task_audio_path pfx outdir t.1), acc.2)

/-- convert_text_to_speech (lines 131-144): tasks complete in the order
given by `order`; each is folded through `ttsStep` starting from the empty
dict and empty log.  Returns the audio-file dict and the log lines. -/
def convert_text_to_speech (order : List (Str × Str)) (fails : Str → Bool)
    ( pfx outdir : Str) : Dict × List Str :=
  order.foldl (ttsStep pfx outdir fails) ([], [])

/-- One deck row as written by create_anki_deck (lines 163-167),
without its trailing newline. -/
def deckRowBody (word audioPath : Str) : Str :=
  "Basic (type in the answer)\t[sound:".data ++ pathName audioPath
    ++ "]\t".data ++ word

/-- One deck row as written by create_anki_deck, trailing newline included. -/
def deckRow (word audioPath : Str) : Str :=
  deckRowBody word audioPath ++ ['\n']

/-- create_anki_deck (lines 146-169): the content written to the output
file, three header lines then one row per dict entry in order. -/
def create_anki_deck (audio_files : Dict) : Str :=
  audio_files.foldl (fun acc t => acc ++ deckRow t.1 t.2)
    "#separator:tab\n#html:true\n#notetype column:1\n".data

/-- The three fixed header lines of the Anki import format. -/
def deckHeaderLines : List Str :=
  ["#separator:tab".data, "#html:true".data, "#notetype column:1".data]

/-- A file system: map from path to file content, when present. -/
abbrev FS := Str → Option Str

/-- create_anki_deck as a file-system update: open(output_file, 'w')
truncates, so the new content replaces whatever was at the path. -/
def create_anki_deck_fs (fs : FS) (audio_files : Dict) (output_file : Str) : FS :=
  fun p => if p = output_file then some (create_anki_deck audio_files) else fs p

/-- The external world of one run: the response texts of the three AI
services, the per-word synthesis failure oracle, the audio bytes produced
for a synthesis input, the scheduler picking the completion order of the
parallel synthesis tasks, and the epoch time at the start of the run. -/
structure World where
  visionContent : Str
  chatContent : List Str → Str
  ttsFails : Str → Bool
  ttsAudio : Str → Str
  schedule : List (Str × Str) → List (Str × Str)
  epoch : Nat

/-- The observable outcome of main: the credential guard fires (message and
exit code 1, nothing written), the sentence parse raises (uncaught
ValueError, nothing written), or the run completes with a list of
(path, content) files written. -/
inductive RunResult where
  | credentialError : RunResult
  | parseFault : RunResult
  | completed : List (Str × Str) → RunResult
deriving DecidableEq

/-- main (lines 172-188), named mainRun since Lean reserves the name main: check the credential, compute the epoch prefix
once, run the four stages, write one mp3 per successful synthesis task and
the deck file last. -/
def mainRun (env : Option Str) (_imagePath outdir : Str) (w : World) : RunResult :=
  match env with
  | none => .credentialError
  | some key =>
      if key.isEmpty then .credentialError
      else
        let pfx := (Nat.repr w.epoch).data
        let words := extract_spelling_words_from_image w.visionContent
        match generate_example_sentences (w.chatContent words) with
        | none => .parseFault
        | some sents =>
            let order := w.schedule sents
            let audio := (convert_text_to_speech order w.ttsFails pfx outdir).1
            let mp3s := (sents.filter (fun t => !w.ttsFails t.1)).map
              (fun t => (task_audio_path pfx outdir t.1, w.ttsAudio (tts_input t.1 t.2)))
            let deckPath := pathJoin outdir ( pfx ++ "_anki_deck.txt".data)
            .completed (mp3s ++ [(deckPath, create_anki_deck audio)])

/-- The process exit code of a run outcome: 1 for the credential guard, 1
for an uncaught exception (CPython default), 0 for a completed run. -/
def exitCode : RunResult → Nat
  | .credentialError => 1
  | .parseFault => 1
  | .completed _ => 0

/-- The files written during a run outcome. -/
def filesOf : RunResult → List (Str × Str)
  | .completed fs => fs
  | _ => []

-- Specification-side definitions, for refinement comparisons ----------------

/-- Spec reading of the extractor parse: the maximal whitespace-free groups
of the content, stated via Mathlib splitOnP. -/
def specSplitWhitespace (s : Str) : List Str :=
  (List.splitOnP isPyWS s).filter (fun w => !w.isEmpty)

/-- Spec reading of the per-line sentence parse: split each line at its
first pipe, trim both parts, insert with last occurrence winning. -/
def specParseLines : List Str → Dict → Option Dict
  | [], d => some d
  | line :: rest, d =>
      match splitFirst '|' line with
      | some (w, s) => specParseLines rest (dictInsert d (pyStrip w) (pyStrip s))
      | none => none

/-- Spec reading of the sentence-generator parse: split on newlines, then
each line at its first pipe. -/
def specParseSentences (content : Str) : Option Dict :=
  specParseLines (pySplit '\n' (pyStrip content)) []

-- Helper lemmas on the split functions ---------------------------------------

theorem modifyHead_modifyHead' (f g : Str → Str) (l : List Str) :
    (l.modifyHead g).modifyHead f = l.modifyHead (fun w => f (g w)) := by
  cases l <;> rfl

theorem pySplitAux_eq (sep : Char) (s : Str) :
    ∀ acc, pySplitAux sep s acc
      = (pySplit sep s).modifyHead (fun w => acc.reverse ++ w) := by
  induction s with
  | nil => intro acc; simp [pySplitAux, pySplit]
  | cons c cs ih =>
      intro acc
      by_cases h : c = sep
      · subst h; simp [pySplitAux, pySplit]
      · simp only [pySplitAux, pySplit, if_neg h]
        rw [ih (c :: acc), ih [c]]
        cases pySplit sep cs <;> simp

theorem pySplit_sep_cons (sep : Char) (s : Str) :
    pySplit sep (sep :: s) = [] :: pySplit sep s := by
  simp [pySplit, pySplitAux]

theorem pySplit_cons_ne (sep c : Char) (s : Str) (h : c ≠ sep) :
    pySplit sep (c :: s) = (pySplit sep s).modifyHead (fun w => c :: w) := by
  show pySplitAux sep (c :: s) [] = _
  simp only [pySplitAux, if_neg h]
  rw [pySplitAux_eq]
  rfl

theorem pySplit_of_not_mem {sep : Char} {s : Str} (h : sep ∉ s) :
    pySplit sep s = [s] := by
  induction s with
  | nil => rfl
  | cons c cs ih =>
      have hc : c ≠ sep := by
        intro e; exact h (e ▸ List.mem_cons_self c cs)
      rw [pySplit_cons_ne _ _ _ hc, ih (fun hm => h (List.mem_cons_of_mem _ hm))]
      rfl

theorem pySplit_append_sep (sep : Char) {x : Str} (rest : Str) (h : sep ∉ x) :
    pySplit sep (x ++ sep :: rest) = x :: pySplit sep rest := by
  induction x with
  | nil => simpa using pySplit_sep_cons sep rest
  | cons c x' ih =>
      have hc : c ≠ sep := by
        intro e; exact h (e ▸ List.mem_cons_self c x')
      rw [List.cons_append, pySplit_cons_ne _ _ _ hc,
        ih (fun hm => h (List.mem_cons_of_mem _ hm))]
      rfl

theorem pySplit_count_one {sep : Char} {s : Str} (h : s.count sep = 1) :
    ∃ a b, pySplit sep s = [a, b] ∧ splitFirst sep s = some (a, b) := by
  induction s with
  | nil => simp at h
  | cons c cs ih =>
      by_cases hc : c = sep
      · subst hc
        have h0 : cs.count c = 0 := by simpa [List.count_cons] using h
        have hnm : c ∉ cs := List.count_eq_zero.mp h0
        refine ⟨[], cs, ?_, ?_⟩
        · rw [pySplit_sep_cons, pySplit_of_not_mem hnm]
        · simp [splitFirst]
      · have h1 : cs.count sep = 1 := by
          simpa [List.count_cons, Ne.symm hc] using h
        obtain ⟨a, b, hsp, hsf⟩ := ih h1
        refine ⟨c :: a, b, ?_, ?_⟩
        · rw [pySplit_cons_ne _ _ _ hc, hsp]; rfl
        · simp [splitFirst, hc, hsf]

theorem parseLines_none {ls : List Str} {line : Str}
    (hmem : line ∈ ls) (hnp : '|' ∉ line) :
    ∀ d, parseLines ls d = none := by
  induction ls with
  | nil => cases hmem
  | cons l rest ih =>
      intro d
      rcases List.mem_cons.mp hmem with h | h
      · subst h
        have hs : pySplit '|' line = [line] := pySplit_of_not_mem hnp
        simp [parseLines, hs]
      · cases hsp : pySplit '|' l with
        | nil => simp [parseLines, hsp]
        | cons a t =>
            cases t with
            | nil => simp [parseLines, hsp]
            | cons b t2 =>
                cases t2 with
                | nil => simpa [parseLines, hsp] using ih h _
                | cons e t3 => simp [parseLines, hsp]

theorem parseLines_eq_spec {ls : List Str} (h : ∀ line ∈ ls, line.count '|' = 1) :
    ∀ d, parseLines ls d = specParseLines ls d := by
  induction ls with
  | nil => intro d; rfl
  | cons l rest ih =>
      intro d
      obtain ⟨a, b, hsp, hsf⟩ := pySplit_count_one (h l (List.mem_cons_self l rest))
      simp only [parseLines, specParseLines, hsp, hsf]
      exact ih (fun x hx => h x (List.mem_cons_of_mem _ hx)) _

-- Claims ---------------------------------------------------------------------

/-- C1 (amended): the sentence generator parses the response by stripping
it, splitting on newlines, and splitting each line at its pipe, trimming
both parts and inserting keyed by word with the last occurrence winning —
provided every line contains exactly one pipe; a line with zero or with
two or more pipes aborts the parse instead. -/
theorem claim_C1 (content : Str)
    (h : ∀ line ∈ pySplit '\n' (pyStrip content), line.count '|' = 1) :
    generate_example_sentences content = specParseSentences content :=
  parseLines_eq_spec h []

theorem claim_C1_witness :
    generate_example_sentences "cat | A cat.\ndog|A dog.\ncat|Again.".data
      = specParseSentences "cat | A cat.\ndog|A dog.\ncat|Again.".data ∧
    generate_example_sentences "cat | A cat.\ndog|A dog.\ncat|Again.".data
      = some [("cat".data, "Again.".data), ("dog".data, "A dog.".data)] :=
  ⟨claim_C1 _ (by decide), by decide⟩

/-- C1 counterexample: on a line with two pipes the code raises ValueError
(too many values to unpack) and returns no mapping, while splitting on the
first pipe would succeed. -/
theorem claim_C1_counterexample :
    generate_example_sentences "a|b|c".data = none ∧
    specParseSentences "a|b|c".data = some [("a".data, "b|c".data)] := by
  exact ⟨by decide, by decide⟩

/-- C4: a response whose parsed lines include one with no pipe separator
makes the sentence generator fail deterministically, returning no partial
mapping. -/
theorem claim_C4 (content line : Str)
    (hmem : line ∈ pySplit '\n' (pyStrip content)) (hnp : '|' ∉ line) :
    generate_example_sentences content = none :=
  parseLines_none hmem hnp []

theorem claim_C4_witness :
    generate_example_sentences "cat|A cat.\noops".data = none :=
  claim_C4 "cat|A cat.\noops".data "oops".data (by decide) (by decide)

theorem pySplitWSAux_eq (s : Str) : ∀ acc,
    pySplitWSAux s acc
      = ((List.splitOnP isPyWS s).modifyHead (fun w => acc.reverse ++ w)).filter
          (fun w => !w.isEmpty) := by
  induction s with
  | nil =>
      intro acc
      cases acc with
      | nil => rfl
      | cons a as => simp [pySplitWSAux]
  | cons c cs ih =>
      intro acc
      rw [List.splitOnP_cons]
      by_cases h : isPyWS c
      · rw [if_pos h]
        have hnil : ((List.splitOnP isPyWS cs).modifyHead
            (fun w => ([] : Str).reverse ++ w)) = List.splitOnP isPyWS cs := by
          cases List.splitOnP isPyWS cs <;> rfl
        have haux : pySplitWSAux cs [] =
            (List.splitOnP isPyWS cs).filter (fun w => !w.isEmpty) := by
          rw [ih [], hnil]
        cases acc with
        | nil =>
            simp only [pySplitWSAux, h, if_true, List.isEmpty_nil]
            rw [haux]
            simp
        | cons a as =>
            simp only [pySplitWSAux, h, if_true, List.isEmpty_cons]
            rw [haux]
            simp
      · rw [if_neg h]
        simp only [pySplitWSAux, h, if_false, Bool.false_eq_true]
        rw [ih (c :: acc)]
        have hcomp : ((List.splitOnP isPyWS cs).modifyHead (fun w => c :: w)).modifyHead
              (fun w => acc.reverse ++ w)
            = (List.splitOnP isPyWS cs).modifyHead (fun w => (c :: acc).reverse ++ w) := by
          cases List.splitOnP isPyWS cs <;> simp
        rw [hcomp]

/-- C5: the word list returned by the extractor equals the result of
splitting the response content on whitespace (the maximal whitespace-free
groups), so the parsing step is a pure function of the response text. -/
theorem claim_C5 (content : Str) :
    extract_spelling_words_from_image content = specSplitWhitespace content := by
  show pySplitWSAux content [] = _
  rw [pySplitWSAux_eq]
  unfold specSplitWhitespace
  congr 1
  cases List.splitOnP isPyWS content <;> rfl

/-- C9: the sentence-generator mapping is keyed by the words of the model
response, not by the input word list: a response keyed "dog" against the
extracted input word list ["cat"] yields a mapping whose only key is
"dog", which is not an input word, and with no entry for "cat". -/
theorem claim_C9 :
    generate_example_sentences "dog|A dog runs.".data
      = some [("dog".data, "A dog runs.".data)] ∧
    extract_spelling_words_from_image "cat".data = ["cat".data] ∧
    "dog".data ∉ extract_spelling_words_from_image "cat".data ∧
    "cat".data ∉ ([("dog".data, "A dog runs.".data)] : Dict).map Prod.fst := by
  exact ⟨by decide, by decide, by decide, by decide⟩

-- C3: deck writer ------------------------------------------------------------

theorem foldl_append_eq {α : Type} (f : α → Str) (l : List α) :
    ∀ init : Str, l.foldl (fun a x => a ++ f x) init = init ++ (l.map f).flatten := by
  induction l with
  | nil => intro init; simp
  | cons x xs ih =>
      intro init
      simp only [List.foldl_cons, List.map_cons, List.flatten_cons]
      rw [ih]
      simp [List.append_assoc]

theorem create_anki_deck_eq (m : Dict) :
    create_anki_deck m
      = ((deckHeaderLines ++ m.map (fun t => deckRowBody t.1 t.2)).map
          (fun r => r ++ ['\n'])).flatten := by
  show m.foldl (fun acc t => acc ++ deckRow t.1 t.2) _ = _
  rw [foldl_append_eq (fun t => deckRow t.1 t.2) m]
  simp only [List.map_append, List.flatten_append]
  congr 1
  rw [List.map_map]
  rfl

theorem pySplit_flatten_rows (rows : List Str) (h : ∀ r ∈ rows, '\n' ∉ r) :
    pySplit '\n' (rows.map (fun r => r ++ ['\n'])).flatten = rows ++ [[]] := by
  induction rows with
  | nil => rfl
  | cons r rs ih =>
      simp only [List.map_cons, List.flatten_cons]
      have hr : (r ++ ['\n']) ++ ((rs.map (fun x => x ++ ['\n'])).flatten)
          = r ++ '\n' :: ((rs.map (fun x => x ++ ['\n'])).flatten) := by
        simp
      rw [hr, pySplit_append_sep '\n' _ (h r (List.mem_cons_self r rs)),
        ih (fun x hx => h x (List.mem_cons_of_mem _ hx))]
      rfl

/-- C3 (amended): provided no word and no audio-path basename contains a
newline, the deck file consists of the three fixed header lines followed
by one row per mapping entry in insertion order, each row of the form
Basic (type in the answer), tab, [sound:basename], tab, word; splitting
the content on newlines yields those N+3 lines plus the empty chunk after
the final newline.  A word or basename containing a newline breaks the
line count. -/
theorem claim_C3 (m : Dict)
    (h : ∀ t ∈ m, '\n' ∉ t.1 ∧ '\n' ∉ pathName t.2) :
    pySplit '\n' (create_anki_deck m)
      = (deckHeaderLines ++ m.map (fun t => deckRowBody t.1 t.2)) ++ [[]] := by
  rw [create_anki_deck_eq, pySplit_flatten_rows]
  intro r hr
  rcases List.mem_append.mp hr with hhd | hrow
  · fin_cases hhd <;> decide
  · obtain ⟨t, htm, rfl⟩ := List.mem_map.mp hrow
    intro hmem
    simp only [deckRowBody, List.append_assoc, List.mem_append] at hmem
    rcases hmem with h1 | h2 | h3 | h4
    · exact absurd h1 (by decide)
    · exact absurd h2 (h t htm).2
    · exact absurd h3 (by decide)
    · exact absurd h4 (h t htm).1

theorem claim_C3_witness :
    pySplit '\n' (create_anki_deck
        [("cat".data, "/tmp/out/123_cat.mp3".data),
         ("dog".data, "/tmp/out/123_dog.mp3".data)])
      = (deckHeaderLines
          ++ ([("cat".data, "/tmp/out/123_cat.mp3".data),
               ("dog".data, "/tmp/out/123_dog.mp3".data)] : Dict).map
              (fun t => deckRowBody t.1 t.2)) ++ [[]] ∧
    pySplit '\n' (create_anki_deck
        [("cat".data, "/tmp/out/123_cat.mp3".data),
         ("dog".data, "/tmp/out/123_dog.mp3".data)])
      = ["#separator:tab".data, "#html:true".data, "#notetype column:1".data,
         "Basic (type in the answer)\t[sound:123_cat.mp3]\tcat".data,
         "Basic (type in the answer)\t[sound:123_dog.mp3]\tdog".data, []] :=
  ⟨claim_C3 _ (by decide), by decide⟩

/-- C3 counterexample: a word containing a newline produces one extra
line, so the file does not have exactly N+3 lines as claimed (here N = 1
and the file has 5 lines, i.e. splitting on newlines gives 6 chunks). -/
theorem claim_C3_counterexample :
    (pySplit '\n' (create_anki_deck [("a\nb".data, "p.mp3".data)])).length
      = ([("a\nb".data, "p.mp3".data)] : Dict).length + 3 + 2 := by decide

-- C2: speech synthesizer -----------------------------------------------------

theorem dictInsert_not_mem {d : Dict} {k : Str} (v : Str)
    (h : k ∉ d.map Prod.fst) : dictInsert d k v = d ++ [(k, v)] := by
  induction d with
  | nil => rfl
  | cons t rest ih =>
      obtain ⟨k', v'⟩ := t
      simp only [List.map_cons, List.mem_cons] at h
      push_neg at h
      simp [dictInsert, Ne.symm h.1, ih h.2]

theorem ttsStep_foldl (fails : Str → Bool) ( pfx outdir : Str) :
    ∀ (order : List (Str × Str)) (d : Dict) (logs : List Str),
      (order.map Prod.fst).Nodup →
      (∀ k ∈ order.map Prod.fst, k ∉ d.map Prod.fst) →
      order.foldl (ttsStep pfx outdir fails) (d, logs)
        = (d ++ (order.filter (fun t => !fails t.1)).map
              (fun t => (t.1, task_audio_path pfx outdir t.1)),
           logs ++ (order.filter (fun t => fails t.1)).map (fun t => ttsLogMsg t.1)) := by
  intro order
  induction order with
  | nil => intro d logs _ _; simp
  | cons t rest ih =>
      intro d logs hnd hdisj
      obtain ⟨w, s⟩ := t
      simp only [List.map_cons, List.nodup_cons] at hnd
      by_cases hf : fails w
      · simp only [List.foldl_cons, ttsStep, hf, if_true]
        rw [ih d (logs ++ [ttsLogMsg w]) hnd.2
          (fun k hk => hdisj k (List.mem_cons_of_mem _ hk))]
        simp [List.filter_cons, hf, List.append_assoc]
      · have hwd : w ∉ d.map Prod.fst := hdisj w (List.mem_cons_self w _)
        simp only [List.foldl_cons, ttsStep, hf, if_false, Bool.false_eq_true]
        rw [dictInsert_not_mem _ hwd]
        rw [ih (d ++ [(w, task_audio_path pfx outdir w)]) logs hnd.2 ?_]
        · simp [List.filter_cons, hf, List.append_assoc]
        · intro k hk
          simp only [List.map_append, List.mem_append, List.map_cons, List.map_nil,
            List.mem_singleton, List.mem_cons, List.not_mem_nil, or_false]
          rintro (hkd | hkw)
          · exact hdisj k (List.mem_cons_of_mem _ hk) hkd
          · exact hnd.1 (hkw ▸ hk)

theorem length_filter_not {α : Type} (p : α → Bool) (l : List α) :
    (l.filter (fun x => !p x)).length = l.length - (l.filter p).length := by
  induction l with
  | nil => rfl
  | cons x xs ih =>
      have hle := List.length_filter_le p xs
      by_cases h : p x <;> simp [List.filter_cons, h, ih]
      omega

/-- C2: for any completion order of the N synthesis tasks (the words being
distinct dict keys) of which M fail, the synthesizer returns the mapping
of exactly the N−M succeeding words to their audio paths, in completion
order, together with one log line naming each failing word; a failure
only excludes its own entry and aborts nothing else. -/
theorem claim_C2 (sentences order : List (Str × Str)) (fails : Str → Bool)
    ( pfx outdir : Str) (hperm : order.Perm sentences)
    (hnd : (sentences.map Prod.fst).Nodup) :
    convert_text_to_speech order fails pfx outdir
      = ((order.filter (fun t => !fails t.1)).map
            (fun t => (t.1, task_audio_path pfx outdir t.1)),
         (order.filter (fun t => fails t.1)).map (fun t => ttsLogMsg t.1)) ∧
    (convert_text_to_speech order fails pfx outdir).1.length
      = sentences.length - (sentences.filter (fun t => fails t.1)).length := by
  have hnd' : (order.map Prod.fst).Nodup :=
    ((hperm.map Prod.fst).nodup_iff).mpr hnd
  have h1 : convert_text_to_speech order fails pfx outdir
      = ((order.filter (fun t => !fails t.1)).map
            (fun t => (t.1, task_audio_path pfx outdir t.1)),
         (order.filter (fun t => fails t.1)).map (fun t => ttsLogMsg t.1)) := by
    have := ttsStep_foldl fails pfx outdir order [] [] hnd'
      (by intro k _ hk; cases hk)
    simpa [convert_text_to_speech] using this
  refine ⟨h1, ?_⟩
  rw [h1]
  simp only [List.length_map]
  rw [length_filter_not]
  rw [hperm.length_eq, (hperm.filter (fun t => fails t.1)).length_eq]

theorem claim_C2_witness :
    convert_text_to_speech [("dog".data, "2".data), ("cat".data, "1".data)]
        (fun w => w == "dog".data) "123".data "out".data
      = ([("cat".data, "out/123_cat.mp3".data)],
         ["An error occurred while processing dog".data]) ∧
    (convert_text_to_speech [("dog".data, "2".data), ("cat".data, "1".data)]
        (fun w => w == "dog".data) "123".data "out".data).1.length
      = ([("cat".data, "1".data), ("dog".data, "2".data)] : Dict).length
        - (([("cat".data, "1".data), ("dog".data, "2".data)] : Dict).filter
            (fun t => t.1 == "dog".data)).length := by
  have h := claim_C2 [("cat".data, "1".data), ("dog".data, "2".data)]
    [("dog".data, "2".data), ("cat".data, "1".data)]
    (fun w => w == "dog".data) "123".data "out".data (by decide) (by decide)
  exact ⟨h.1.trans (by decide), h.2⟩

-- C7, C8, C10 ----------------------------------------------------------------

/-- C7: the deck writer overwrites: writing the same mapping twice to the
same destination is the same file-system update as writing it once, and
the content left at the destination is independent of whatever any
pre-existing file system held there. -/
theorem claim_C7 (fs fs' : FS) (m : Dict) (out : Str) :
    create_anki_deck_fs (create_anki_deck_fs fs m out) m out
      = create_anki_deck_fs fs m out ∧
    create_anki_deck_fs fs m out out = create_anki_deck_fs fs' m out out := by
  constructor
  · funext p
    by_cases h : p = out <;> simp [create_anki_deck_fs, h]
  · simp [create_anki_deck_fs]

/-- C8: with the credential variable unset, main stops at the guard with
exit code 1 before any stage runs and writes no files. -/
theorem claim_C8 (image outdir : Str) (w : World) :
    mainRun none image outdir w = RunResult.credentialError ∧
    exitCode (mainRun none image outdir w) = 1 ∧
    filesOf (mainRun none image outdir w) = [] :=
  ⟨rfl, rfl, rfl⟩

/-- C10: with the credential variable set to the empty string, the falsy
guard makes main behave exactly as in the unset case: exit code 1, no
files, identical outcome. -/
theorem claim_C10 (image outdir : Str) (w : World) :
    mainRun (some []) image outdir w = mainRun none image outdir w ∧
    exitCode (mainRun (some []) image outdir w) = 1 ∧
    filesOf (mainRun (some []) image outdir w) = [] :=
  ⟨rfl, rfl, rfl⟩

-- C6: run-wide file prefix ---------------------------------------------------

/-- C6: in a completed run every written file lives in the given output
directory under the single prefix derived from the epoch time read once at
the start of the run: the written paths are exactly one mp3 per
successfully synthesized word at outdir/prefix_word.mp3 followed by the
deck file at outdir/prefix_anki_deck.txt, and every one of them starts
with outdir/prefix_. -/
theorem claim_C6 (env image outdir : Str) (w : World) (files : List (Str × Str))
    (hrun : mainRun (some env) image outdir w = RunResult.completed files) :
    ∃ sents : Dict,
      generate_example_sentences
          (w.chatContent (extract_spelling_words_from_image w.visionContent))
        = some sents ∧
      files.map Prod.fst
        = (sents.filter (fun t => !w.ttsFails t.1)).map
            (fun t => task_audio_path (Nat.repr w.epoch).data outdir t.1)
          ++ [pathJoin outdir ((Nat.repr w.epoch).data ++ "_anki_deck.txt".data)] ∧
      ∀ p ∈ files.map Prod.fst,
        ∃ rest, p = pathJoin outdir ((Nat.repr w.epoch).data ++ '_' :: rest) := by
  simp only [mainRun] at hrun
  by_cases he : env.isEmpty
  · rw [if_pos he] at hrun; cases hrun
  · rw [if_neg he] at hrun
    cases hgen : generate_example_sentences
        (w.chatContent (extract_spelling_words_from_image w.visionContent)) with
    | none => rw [hgen] at hrun; cases hrun
    | some sents =>
        rw [hgen] at hrun
        injection hrun with hfiles
        subst hfiles
        refine ⟨sents, rfl, ?_, ?_⟩
        · simp [List.map_map]
        · intro p hp
          simp only [List.map_append, List.map_map, List.map_cons, List.map_nil,
            List.mem_append, List.mem_map, Function.comp, List.mem_cons,
            List.not_mem_nil, or_false] at hp
          rcases hp with ⟨t, _, rfl⟩ | rfl
          · exact ⟨t.1 ++ ".mp3".data, rfl⟩
          · exact ⟨"anki_deck.txt".data, rfl⟩

theorem claim_C6_witness :
    ∃ sents : Dict,
      generate_example_sentences "cat|A cat.".data = some sents ∧
      ([("out/7_cat.mp3".data, tts_input "cat".data "A cat.".data),
        ("out/7_anki_deck.txt".data,
          create_anki_deck [("cat".data, "out/7_cat.mp3".data)])].map Prod.fst
        = (sents.filter (fun _ => !false)).map
            (fun t => task_audio_path (Nat.repr 7).data "out".data t.1)
          ++ [pathJoin "out".data ((Nat.repr 7).data ++ "_anki_deck.txt".data)]) ∧
      ∀ p ∈ ([("out/7_cat.mp3".data, tts_input "cat".data "A cat.".data),
        ("out/7_anki_deck.txt".data,
          create_anki_deck [("cat".data, "out/7_cat.mp3".data)])].map Prod.fst),
        ∃ rest, p = pathJoin "out".data ((Nat.repr 7).data ++ '_' :: rest) :=
  claim_C6 "k".data "img".data "out".data
    { visionContent := "cat".data,
      chatContent := fun _ => "cat|A cat.".data,
      ttsFails := fun _ => false,
      ttsAudio := fun b => b,
      schedule := fun l => l,
      epoch := 7 }
    [("out/7_cat.mp3".data, tts_input "cat".data "A cat.".data),
     ("out/7_anki_deck.txt".data,
       create_anki_deck [("cat".data, "out/7_cat.mp3".data)])]
    (by decide)

-- Scratch checks
example : pySplit '|' "a|b|c".data = ["a".data, "b".data, "c".data] := by decide
example : pySplitWS " a  b ".data = ["a".data, "b".data] := by decide
example : pyStrip "  x y \n".data = "x y".data := by decide
example : generate_example_sentences "cat | A cat.\ndog|A dog.".data
    = some [("cat".data, "A cat.".data), ("dog".data, "A dog.".data)] := by decide
example : generate_example_sentences "a|b|c".data = none := by decide
example : generate_example_sentences "cat|A cat.\noops".data = none := by decide
example : pathName "/tmp/out/123_cat.mp3".data = "123_cat.mp3".data := by decide
